import Mathlib

/-!
Verification of the BeagleCam frame transport and reassembly pipeline.

The definitions below are a shallow embedding of:
* the host transport client `rpmsg_cam_get_frame` / `rpmsg_cam_read_msg`
  (rpmsg-cam.c),
* the frame ring buffer and acquisition/display loops (main.c),
* the PRU1 firmware start/stop command handshake (main-pru1.c).

Messages received over the RPMsg channel are modelled as structured values;
payload bytes are natural numbers.  Fallible reads appear as an explicit
`readErr` event in the received stream.
-/

/-- Frame section identifiers, from `enum bcam_frm_sect` in bcam-rpmsg-api.h:
NONE=0, START=1, BODY=2, END=3, INVALID=4. -/
def BCAM_FRM_NONE : Nat := 0
def BCAM_FRM_START : Nat := 1
def BCAM_FRM_BODY : Nat := 2
def BCAM_FRM_END : Nat := 3
def BCAM_FRM_INVALID : Nat := 4

/-- Maximum frame length, from rpmsg-cam.h: `640 * 480 * 2` (VGA RGB565). -/
def BCAM_FRAME_LEN_MAX : Nat := 640 * 480 * 2

/-- A message received from PRU1, following `struct bcam_pru_msg`:
a `type` discriminant selecting an INFO, LOG or CAP header.  A CAP message
carries a frame-section byte `frm`, a sequence number `seq` and payload
data.  `unknown` covers any other value of the type byte. -/
inductive PruMsg where
  | info (payload : List Nat)
  | log (level : Nat) (payload : List Nat)
  | cap (frm : Nat) (seq : Nat) (payload : List Nat)
  | unknown (t : Nat) (payload : List Nat)
deriving DecidableEq

/-- The payload bytes following the type-specific header of a message. -/
def msgPayload : PruMsg → List Nat
  | .info p => p
  | .log _ p => p
  | .cap _ _ p => p
  | .unknown _ p => p

/-- One receive event observed by `rpmsg_cam_read_msg`: either a whole
message or a read failure (epoll error/timeout or empty read, all of which
make `rpmsg_cam_read_msg` return -1). -/
inductive RpmsgEv where
  | recv (m : PruMsg)
  | readErr
deriving DecidableEq

/-- Classification performed by `rpmsg_cam_read_msg` for a successfully read
message, given the expected sequence number `expSeq`:
`0` for INFO/LOG/unknown/NONE-section messages (ignored),
`-2` for a frame section `>= BCAM_FRM_INVALID`,
`-3` for a sequence number different from the expected one,
otherwise the frame section (1, 2 or 3). -/
def rpmsg_cam_read_msg (expSeq : Nat) : PruMsg → Int
  | .info _ => 0
  | .log _ _ => 0
  | .unknown _ _ => 0
  | .cap frm seq _ =>
    if frm = BCAM_FRM_NONE then 0
    else if BCAM_FRM_INVALID ≤ frm then -2
    else if seq ≠ expSeq then -3
    else (frm : Int)

/-- Outcome of one `rpmsg_cam_get_frame` call: either a successfully
reassembled frame (the bytes written to `frame->pixels[0..img_sz)`), or one
of the error return codes -1, -2, -3, or exhaustion of the modelled finite
event stream. -/
inductive GFOut where
  | success (pixels : List Nat)
  | readErr
  | frameErr
  | syncErr
  | outOfInput
deriving DecidableEq

/-- Result of `rpmsg_cam_get_frame`: the outcome, the list of
`memcpy(frame->pixels + off, data, len)` operations performed (as
`(off, len)` pairs, in order), and the remaining unconsumed event stream. -/
structure GFResult where
  out : GFOut
  writes : List (Nat × Nat)
  rest : List RpmsgEv
deriving DecidableEq

/-- The return code of `rpmsg_cam_get_frame` for an outcome. -/
def gfRetCode : GFOut → Int
  | .success _ => 0
  | .readErr => -1
  | .frameErr => -2
  | .syncErr => -3
  | .outOfInput => -1

/-- The "find frame end" loop of `rpmsg_cam_get_frame` (second `while` in
rpmsg-cam.c): state is the byte count `cnt`, the expected sequence `seq`,
and `acc`, the bytes written so far at offsets `[0, cnt)` of the frame
buffer.  A START section resets `cnt`/`seq`/`acc` before the size check; an
accepted section is size-checked (`cnt + data_len > img_sz` is a frame
error), copied at offset `cnt`, and an END section additionally requires
`cnt` to have reached `img_sz`. -/
def rpmsg_cam_find_end (imgSz : Nat) :
    List RpmsgEv → Nat → Nat → List Nat → GFResult
  | [], _, _, _ => ⟨.outOfInput, [], []⟩
  | .readErr :: rest, _, _, _ => ⟨.readErr, [], rest⟩
  | .recv m :: rest, cnt, seq, acc =>
    let r := rpmsg_cam_read_msg seq m
    let z := msgPayload m
    if r = 1 ∨ r = 2 ∨ r = 3 then
      -- a new START resets the current frame before the common size check
      let cnt0 := if r = 1 then 0 else cnt
      let seq0 := if r = 1 then 0 else seq
      let acc0 := if r = 1 then [] else acc
      if imgSz < cnt0 + z.length then ⟨.frameErr, [], rest⟩
      else if r = 3 then
        if cnt0 + z.length < imgSz then ⟨.frameErr, [(cnt0, z.length)], rest⟩
        else ⟨.success (acc0 ++ z), [(cnt0, z.length)], rest⟩
      else
        let res := rpmsg_cam_find_end imgSz rest (cnt0 + z.length) (seq0 + 1) (acc0 ++ z)
        ⟨res.out, (cnt0, z.length) :: res.writes, res.rest⟩
    else if r = 0 then rpmsg_cam_find_end imgSz rest cnt seq acc
    else if r = -2 then ⟨.frameErr, [], rest⟩
    else ⟨.syncErr, [], rest⟩

/-- The "find frame start" loop of `rpmsg_cam_get_frame` (first `while` in
rpmsg-cam.c): INFO/LOG/NONE messages and INVALID sections are skipped;
an accepted START (expected sequence 0) is size-checked and copied at
offset 0, moving to the find-end phase; any other frame-data return
(BODY, END, or sequence mismatch) adds its payload length to the skipped
byte count `cnt`, aborting with a sync error once `cnt` exceeds
`2 * img_sz`. -/
def rpmsg_cam_find_start (imgSz : Nat) : List RpmsgEv → Nat → GFResult
  | [], _ => ⟨.outOfInput, [], []⟩
  | .readErr :: rest, _ => ⟨.readErr, [], rest⟩
  | .recv m :: rest, cnt =>
    let r := rpmsg_cam_read_msg 0 m
    let z := msgPayload m
    if r = 1 then
      if imgSz < z.length then ⟨.frameErr, [], rest⟩
      else
        let res := rpmsg_cam_find_end imgSz rest z.length 1 z
        ⟨res.out, (0, z.length) :: res.writes, res.rest⟩
    else if r = 0 ∨ r = -2 then rpmsg_cam_find_start imgSz rest cnt
    else
      if 2 * imgSz < cnt + z.length then ⟨.syncErr, [], rest⟩
      else rpmsg_cam_find_start imgSz rest (cnt + z.length)

/-- `rpmsg_cam_get_frame`: reassemble one frame of `imgSz` bytes from the
stream of receive events. -/
def rpmsg_cam_get_frame (imgSz : Nat) (evs : List RpmsgEv) : GFResult :=
  rpmsg_cam_find_start imgSz evs 0

/-- A CAP receive event with the given section, sequence and payload. -/
def mkCap (frm seq : Nat) (p : List Nat) : RpmsgEv :=
  .recv (.cap frm seq p)

/-- BODY-section events with consecutive wire sequence numbers starting
at `seq`. -/
def mkBodies : Nat → List (List Nat) → List RpmsgEv
  | _, [] => []
  | seq, p :: ps => mkCap BCAM_FRM_BODY seq p :: mkBodies (seq + 1) ps

/-- The events of a well-formed frame: a START with wire sequence 0,
BODY messages with wire sequences 1, 2, ..., and a final END message with
the next wire sequence. -/
def mkFrameEvents (startP : List Nat) (bodies : List (List Nat)) (endP : List Nat) :
    List RpmsgEv :=
  mkCap BCAM_FRM_START 0 startP ::
    (mkBodies 1 bodies ++ [mkCap BCAM_FRM_END (bodies.length + 1) endP])

/-- Size of the frame ring buffer (`FRAME_RING_SIZE` in main.c). -/
def FRAME_RING_SIZE : Nat := 8

/-- `CIRC_CNT(head, tail, size)` from main.c: `((head) - (tail)) & ((size) - 1)`.
The C computation is on `int`; masking with `size - 1 = 7` equals the
(always non-negative) remainder of the difference modulo 8. -/
def CIRC_CNT (head tail : Nat) : Nat :=
  (((head : Int) - (tail : Int)) % (FRAME_RING_SIZE : Int)).toNat

/-- `CIRC_SPACE(head, tail, size)` from main.c:
`CIRC_CNT((tail), ((head) + 1), (size))` — one slot always stays free. -/
def CIRC_SPACE (head tail : Nat) : Nat := CIRC_CNT tail (head + 1)

/-- Reduction of an index into the ring buffer array bounds. -/
def ringIdx (i : Nat) : Fin FRAME_RING_SIZE :=
  ⟨i % FRAME_RING_SIZE, Nat.mod_lt i (by decide)⟩

/-- The frame ring buffer (`struct ring_buffer` in main.c): the slot array
and the reader (tail) and writer (head) indexes.  Slot contents are
abstracted over a type `α`. -/
structure FrameRing (α : Type) where
  buf : Fin FRAME_RING_SIZE → α
  reader : Nat
  writer : Nat

/-- The initial ring buffer: `.reader = 0, .writer = 0`, slots filled with a
default element. -/
def emptyRing (α : Type) (d : α) : FrameRing α :=
  ⟨fun _ => d, 0, 0⟩

/-- The producer-side push of `acquire_frames` in main.c: if
`CIRC_SPACE(head, tail, FRAME_RING_SIZE) >= 1`, store the frame in slot
`head` and publish `writer = (head + 1) & (FRAME_RING_SIZE - 1)`, reporting
success; otherwise leave the ring unchanged and report failure (the frame
is dropped). -/
def ring_try_push {α : Type} (rb : FrameRing α) (x : α) : FrameRing α × Bool :=
  let head := rb.writer
  let tail := rb.reader
  if 1 ≤ CIRC_SPACE head tail then
    ({ buf := Function.update rb.buf (ringIdx head) x,
       reader := rb.reader,
       writer := (head + 1) % FRAME_RING_SIZE }, true)
  else (rb, false)

/-- The consumer-side pop of `display_frames` in main.c: if
`CIRC_CNT(head, tail, FRAME_RING_SIZE) >= 1`, consume slot `tail` and
publish `reader = (tail + 1) & (FRAME_RING_SIZE - 1)`; otherwise (ring
empty) there is nothing to consume. -/
def ring_try_pop {α : Type} (rb : FrameRing α) : Option (FrameRing α × α) :=
  let head := rb.writer
  let tail := rb.reader
  if 1 ≤ CIRC_CNT head tail then
    some ({ rb with reader := (tail + 1) % FRAME_RING_SIZE }, rb.buf (ringIdx tail))
  else none

/-- The frames currently stored in the ring, oldest first: the slots from
`reader` (inclusive) to `writer` (exclusive), indices modulo the ring
size. -/
def ringQueue {α : Type} (rb : FrameRing α) : List α :=
  (List.range (CIRC_CNT rb.writer rb.reader)).map fun i =>
    rb.buf (ringIdx (rb.reader + i))

/-- A single-threaded ring-buffer operation: produce one frame or consume
one frame. -/
inductive RingOp (α : Type) where
  | push (x : α)
  | pop

/-- Run a sequence of operations against the ring buffer, collecting the
popped frames in order (a pop on an empty ring buffer consumes nothing). -/
def ring_run {α : Type} : FrameRing α → List (RingOp α) → FrameRing α × List α
  | rb, [] => (rb, [])
  | rb, .push x :: ops => ring_run (ring_try_push rb x).1 ops
  | rb, .pop :: ops =>
    match ring_try_pop rb with
    | some (rb2, v) =>
      let r := ring_run rb2 ops
      (r.1, v :: r.2)
    | none => ring_run rb ops

/-- Specification model for the ring buffer: a FIFO queue holding at most
`FRAME_RING_SIZE - 1` elements; a push on a full queue is dropped, a pop
takes the oldest element. -/
def queue_run {α : Type} : List α → List (RingOp α) → List α × List α
  | q, [] => (q, [])
  | q, .push x :: ops =>
    queue_run (if q.length < FRAME_RING_SIZE - 1 then q ++ [x] else q) ops
  | q, .pop :: ops =>
    match q with
    | [] => queue_run [] ops
    | v :: q2 =>
      let r := queue_run q2 ops
      (r.1, v :: r.2)

/-- Push a list of frames one by one, collecting each push's success flag. -/
def ring_push_list {α : Type} : FrameRing α → List α → FrameRing α × List Bool
  | rb, [] => (rb, [])
  | rb, x :: xs =>
    let r := ring_push_list (ring_try_push rb x).1 xs
    (r.1, (ring_try_push rb x).2 :: r.2)

/-- Frame acquisition statistics (`struct frame_acq_stats` in main.c),
restricted to the counters the claims are about. -/
structure FrameAcqStats where
  total_frames : Nat
  dropped_frames : Nat
deriving DecidableEq

/-- One iteration of the `acquire_frames` loop in main.c for a successfully
received frame: if the ring has space the frame is stored and published;
otherwise it is dropped and `dropped_frames` is incremented.  In both cases
`total_frames` is incremented. -/
def acquire_step {α : Type} (rb : FrameRing α) (st : FrameAcqStats) (f : α) :
    FrameRing α × FrameAcqStats × Bool :=
  if 1 ≤ CIRC_SPACE rb.writer rb.reader then
    ((ring_try_push rb f).1,
     { st with total_frames := st.total_frames + 1 }, true)
  else
    (rb, { total_frames := st.total_frames + 1,
           dropped_frames := st.dropped_frames + 1 }, false)

/-- Run the acquisition loop over a list of incoming frames with no
concurrent consumer, collecting each iteration's push outcome. -/
def acquire_run {α : Type} :
    FrameRing α → FrameAcqStats → List α → FrameRing α × FrameAcqStats × List Bool
  | rb, st, [] => (rb, st, [])
  | rb, st, f :: fs =>
    let a := acquire_step rb st f
    let r := acquire_run a.1 a.2.1 fs
    (r.1, r.2.1, a.2.2 :: r.2.2)

/-- Capture run state of the PRU1 firmware (`enum bcam_cap_status` plus the
`PAUSED` state used by main-pru1.c). -/
inductive CapRunState where
  | stopped
  | paused
  | started
deriving DecidableEq

/-- The ACK busy-wait loop of `start_stop_capture` in main-pru1.c, with the
remaining number of polls before the timeout made explicit: at each step the
loop first checks the ACK flag, then gives up if the cycle counter reached
the timeout. -/
def waitAckAux (ack : Nat → Bool) : Nat → Nat → Bool
  | 0, t => ack t
  | fuel + 1, t => if ack t then true else waitAckAux ack fuel (t + 1)

/-- The ACK busy-wait loop of `start_stop_capture` in main-pru1.c:
`ack t` tells whether `SMEM.pru1_cmd.id == PRU_CMD_ACK` is observed at
cycle-counter step `t`; the loop polls the flag from step `t` and gives up
once the cycle counter reaches the timeout `tmout`. -/
def waitAck (ack : Nat → Bool) (tmout : Nat) (t : Nat) : Bool :=
  waitAckAux ack (tmout - t) t

/-- `start_stop_capture` from main-pru1.c: issue the command to PRU0, then
busy-wait for the ACK; on timeout return -1 leaving `run_state` unchanged;
on ACK set `run_state` to `STARTED` (start) or `STOPPED` (stop) and
return 0. -/
def start_stop_capture (ack : Nat → Bool) (tmout : Nat) (start : Bool)
    (st : CapRunState) : Int × CapRunState :=
  if waitAck ack tmout 0 then
    (0, if start then .started else .stopped)
  else (-1, st)

/-- The `PAUSED` branch of the firmware main loop: resume frame acquisition
with `start_stop_capture(1)`; on failure set `run_state = BCAM_CAP_STOPPED`. -/
def resume_capture (ack : Nat → Bool) (tmout : Nat) (st : CapRunState) :
    Int × CapRunState :=
  let r := start_stop_capture ack tmout true st
  if r.1 = 0 then r else (r.1, .stopped)

theorem find_end_body_ok (imgSz cnt seq : Nat) (acc p : List Nat)
    (rest : List RpmsgEv) (h : cnt + p.length ≤ imgSz) :
    rpmsg_cam_find_end imgSz (mkCap BCAM_FRM_BODY seq p :: rest) cnt seq acc =
      ⟨(rpmsg_cam_find_end imgSz rest (cnt + p.length) (seq + 1) (acc ++ p)).out,
       (cnt, p.length) ::
         (rpmsg_cam_find_end imgSz rest (cnt + p.length) (seq + 1) (acc ++ p)).writes,
       (rpmsg_cam_find_end imgSz rest (cnt + p.length) (seq + 1) (acc ++ p)).rest⟩ := by
  simp [mkCap, BCAM_FRM_BODY, BCAM_FRM_NONE, BCAM_FRM_INVALID,
    rpmsg_cam_find_end, rpmsg_cam_read_msg, msgPayload, Nat.not_lt.mpr h]

theorem find_end_end_ok (imgSz cnt seq : Nat) (acc p : List Nat)
    (rest : List RpmsgEv) (h : cnt + p.length = imgSz) :
    rpmsg_cam_find_end imgSz (mkCap BCAM_FRM_END seq p :: rest) cnt seq acc =
      ⟨.success (acc ++ p), [(cnt, p.length)], rest⟩ := by
  simp [mkCap, BCAM_FRM_END, BCAM_FRM_NONE, BCAM_FRM_INVALID,
    rpmsg_cam_find_end, rpmsg_cam_read_msg, msgPayload,
    show ¬(imgSz < cnt + p.length) by omega,
    show ¬(cnt + p.length < imgSz) by omega]

theorem find_end_end_short (imgSz cnt seq : Nat) (acc p : List Nat)
    (rest : List RpmsgEv) (h : cnt + p.length < imgSz) :
    rpmsg_cam_find_end imgSz (mkCap BCAM_FRM_END seq p :: rest) cnt seq acc =
      ⟨.frameErr, [(cnt, p.length)], rest⟩ := by
  simp [mkCap, BCAM_FRM_END, BCAM_FRM_NONE, BCAM_FRM_INVALID,
    rpmsg_cam_find_end, rpmsg_cam_read_msg, msgPayload, h,
    show ¬(imgSz < cnt + p.length) by omega]

theorem find_end_oversize (imgSz cnt seq frm : Nat) (acc p : List Nat)
    (rest : List RpmsgEv) (hfrm : frm = BCAM_FRM_BODY ∨ frm = BCAM_FRM_END)
    (h : imgSz < cnt + p.length) :
    rpmsg_cam_find_end imgSz (mkCap frm seq p :: rest) cnt seq acc =
      ⟨.frameErr, [], rest⟩ := by
  rcases hfrm with hfrm | hfrm <;> subst hfrm <;>
    simp [mkCap, BCAM_FRM_BODY, BCAM_FRM_END, BCAM_FRM_NONE, BCAM_FRM_INVALID,
      rpmsg_cam_find_end, rpmsg_cam_read_msg, msgPayload, h]

theorem find_end_start_reset (imgSz cnt seq : Nat) (acc p : List Nat)
    (rest : List RpmsgEv) (h : p.length ≤ imgSz) :
    rpmsg_cam_find_end imgSz (mkCap BCAM_FRM_START seq p :: rest) cnt seq acc =
      ⟨(rpmsg_cam_find_end imgSz rest p.length 1 p).out,
       (0, p.length) :: (rpmsg_cam_find_end imgSz rest p.length 1 p).writes,
       (rpmsg_cam_find_end imgSz rest p.length 1 p).rest⟩ := by
  simp [mkCap, BCAM_FRM_START, BCAM_FRM_NONE, BCAM_FRM_INVALID,
    rpmsg_cam_find_end, rpmsg_cam_read_msg, msgPayload, Nat.not_lt.mpr h]

theorem find_end_start_oversize (imgSz cnt seq : Nat) (acc p : List Nat)
    (rest : List RpmsgEv) (h : imgSz < p.length) :
    rpmsg_cam_find_end imgSz (mkCap BCAM_FRM_START seq p :: rest) cnt seq acc =
      ⟨.frameErr, [], rest⟩ := by
  simp [mkCap, BCAM_FRM_START, BCAM_FRM_NONE, BCAM_FRM_INVALID,
    rpmsg_cam_find_end, rpmsg_cam_read_msg, msgPayload, h]

theorem find_end_seq_mismatch (imgSz cnt seq frm s : Nat) (acc p : List Nat)
    (rest : List RpmsgEv)
    (hfrm : frm = BCAM_FRM_START ∨ frm = BCAM_FRM_BODY ∨ frm = BCAM_FRM_END)
    (hs : s ≠ seq) :
    rpmsg_cam_find_end imgSz (mkCap frm s p :: rest) cnt seq acc =
      ⟨.syncErr, [], rest⟩ := by
  rcases hfrm with hfrm | hfrm | hfrm <;> subst hfrm <;>
    simp [mkCap, BCAM_FRM_START, BCAM_FRM_BODY, BCAM_FRM_END, BCAM_FRM_NONE,
      BCAM_FRM_INVALID, rpmsg_cam_find_end, rpmsg_cam_read_msg, msgPayload, hs]

theorem find_end_invalid (imgSz cnt seq frm s : Nat) (acc p : List Nat)
    (rest : List RpmsgEv) (hfrm : BCAM_FRM_INVALID ≤ frm) :
    rpmsg_cam_find_end imgSz (mkCap frm s p :: rest) cnt seq acc =
      ⟨.frameErr, [], rest⟩ := by
  simp only [BCAM_FRM_INVALID] at hfrm
  simp [mkCap, BCAM_FRM_NONE, BCAM_FRM_INVALID,
    rpmsg_cam_find_end, rpmsg_cam_read_msg, msgPayload, hfrm,
    show frm ≠ 0 by omega]

theorem find_end_skip (imgSz cnt seq : Nat) (acc : List Nat) (m : PruMsg)
    (rest : List RpmsgEv) (hm : rpmsg_cam_read_msg seq m = 0) :
    rpmsg_cam_find_end imgSz (.recv m :: rest) cnt seq acc =
      rpmsg_cam_find_end imgSz rest cnt seq acc := by
  simp [rpmsg_cam_find_end, hm]

theorem find_start_start_ok (imgSz cnt : Nat) (p : List Nat)
    (rest : List RpmsgEv) (h : p.length ≤ imgSz) :
    rpmsg_cam_find_start imgSz (mkCap BCAM_FRM_START 0 p :: rest) cnt =
      ⟨(rpmsg_cam_find_end imgSz rest p.length 1 p).out,
       (0, p.length) :: (rpmsg_cam_find_end imgSz rest p.length 1 p).writes,
       (rpmsg_cam_find_end imgSz rest p.length 1 p).rest⟩ := by
  simp [mkCap, BCAM_FRM_START, BCAM_FRM_NONE, BCAM_FRM_INVALID,
    rpmsg_cam_find_start, rpmsg_cam_read_msg, msgPayload, Nat.not_lt.mpr h]

theorem find_start_start_oversize (imgSz cnt : Nat) (p : List Nat)
    (rest : List RpmsgEv) (h : imgSz < p.length) :
    rpmsg_cam_find_start imgSz (mkCap BCAM_FRM_START 0 p :: rest) cnt =
      ⟨.frameErr, [], rest⟩ := by
  simp [mkCap, BCAM_FRM_START, BCAM_FRM_NONE, BCAM_FRM_INVALID,
    rpmsg_cam_find_start, rpmsg_cam_read_msg, msgPayload, h]

theorem find_start_skip (imgSz cnt : Nat) (m : PruMsg) (rest : List RpmsgEv)
    (hm : rpmsg_cam_read_msg 0 m = 0 ∨ rpmsg_cam_read_msg 0 m = -2) :
    rpmsg_cam_find_start imgSz (.recv m :: rest) cnt =
      rpmsg_cam_find_start imgSz rest cnt := by
  rcases hm with hm | hm <;> simp [rpmsg_cam_find_start, hm]

theorem find_start_counted_continue (imgSz cnt : Nat) (m : PruMsg)
    (rest : List RpmsgEv)
    (hm : rpmsg_cam_read_msg 0 m = 2 ∨ rpmsg_cam_read_msg 0 m = 3 ∨
      rpmsg_cam_read_msg 0 m = -3)
    (h : cnt + (msgPayload m).length ≤ 2 * imgSz) :
    rpmsg_cam_find_start imgSz (.recv m :: rest) cnt =
      rpmsg_cam_find_start imgSz rest (cnt + (msgPayload m).length) := by
  rcases hm with hm | hm | hm <;>
    simp [rpmsg_cam_find_start, hm, Nat.not_lt.mpr h]

theorem find_start_counted_abort (imgSz cnt : Nat) (m : PruMsg)
    (rest : List RpmsgEv)
    (hm : rpmsg_cam_read_msg 0 m = 2 ∨ rpmsg_cam_read_msg 0 m = 3 ∨
      rpmsg_cam_read_msg 0 m = -3)
    (h : 2 * imgSz < cnt + (msgPayload m).length) :
    rpmsg_cam_find_start imgSz (.recv m :: rest) cnt =
      ⟨.syncErr, [], rest⟩ := by
  rcases hm with hm | hm | hm <;> simp [rpmsg_cam_find_start, hm, h]

theorem find_end_wf (imgSz : Nat) (bodies : List (List Nat)) :
    ∀ (cnt seq : Nat) (acc endP : List Nat) (rest : List RpmsgEv),
      cnt = acc.length →
      cnt + (bodies.flatten.length + endP.length) = imgSz →
      (rpmsg_cam_find_end imgSz
          (mkBodies seq bodies ++ mkCap BCAM_FRM_END (seq + bodies.length) endP :: rest)
          cnt seq acc).out = .success (acc ++ (bodies.flatten ++ endP)) ∧
      (rpmsg_cam_find_end imgSz
          (mkBodies seq bodies ++ mkCap BCAM_FRM_END (seq + bodies.length) endP :: rest)
          cnt seq acc).rest = rest := by
  induction bodies with
  | nil =>
    intro cnt seq acc endP rest hcnt htot
    simp only [List.flatten_nil, List.length_nil, Nat.zero_add] at htot
    simp only [mkBodies, List.nil_append, List.length_nil, Nat.add_zero]
    rw [find_end_end_ok imgSz cnt seq acc endP rest (by omega)]
    simp

  | cons p ps ih =>
    intro cnt seq acc endP rest hcnt htot
    simp only [List.flatten_cons, List.length_append] at htot
    simp only [mkBodies, List.cons_append, List.length_cons]
    rw [show seq + (ps.length + 1) = (seq + 1) + ps.length by omega]
    rw [find_end_body_ok imgSz cnt seq acc p _ (by omega)]
    have hrec := ih (cnt + p.length) (seq + 1) (acc ++ p) endP rest
      (by simp [List.length_append]; omega) (by omega)
    constructor
    · rw [hrec.1]
      simp [List.append_assoc]
    · exact hrec.2

/-- Helper: a well-formed frame stream whose total payload equals the image
size reassembles successfully into the concatenation of the payloads, and
consumes exactly the frame events. -/
theorem get_frame_wf (imgSz : Nat) (startP : List Nat)
    (bodies : List (List Nat)) (endP : List Nat) (rest : List RpmsgEv)
    (htot : startP.length + bodies.flatten.length + endP.length = imgSz) :
    (rpmsg_cam_get_frame imgSz (mkFrameEvents startP bodies endP ++ rest)).out =
      .success (startP ++ (bodies.flatten ++ endP)) ∧
    (rpmsg_cam_get_frame imgSz (mkFrameEvents startP bodies endP ++ rest)).rest =
      rest := by
  have hfe := find_end_wf imgSz bodies startP.length 1 startP endP rest rfl (by omega)
  simp only [rpmsg_cam_get_frame, mkFrameEvents, List.cons_append, List.append_assoc,
    List.cons_append, List.nil_append] at *
  rw [find_start_start_ok imgSz 0 startP _ (by omega)]
  rw [show (1 : Nat) + bodies.length = bodies.length + 1 by omega] at hfe
  exact hfe

/-- Helper: classification of `rpmsg_cam_read_msg` outcomes: every message
is ignored (0), invalid (-2), sequence-mismatched (-3), or an accepted
START/BODY/END section of a CAP message carrying the expected sequence. -/
theorem read_msg_cases (expSeq : Nat) (m : PruMsg) :
    rpmsg_cam_read_msg expSeq m = 0 ∨ rpmsg_cam_read_msg expSeq m = -2 ∨
    rpmsg_cam_read_msg expSeq m = -3 ∨
    (∃ frm p, m = .cap frm expSeq p ∧ (frm = 1 ∨ frm = 2 ∨ frm = 3) ∧
      rpmsg_cam_read_msg expSeq m = frm) := by
  cases m with
  | info p => exact Or.inl rfl
  | log l p => exact Or.inl rfl
  | unknown t p => exact Or.inl rfl
  | cap frm s p =>
    simp only [rpmsg_cam_read_msg, BCAM_FRM_NONE, BCAM_FRM_INVALID]
    by_cases h0 : frm = 0
    · simp [h0]
    · rw [if_neg h0]
      by_cases h4 : 4 ≤ frm
      · simp [h4]
      · rw [if_neg h4]
        by_cases hs : s ≠ expSeq
        · simp [hs]
        · simp only [ne_eq, not_not] at hs
          subst hs
          simp only [ne_eq, not_true_eq_false, if_false]
          refine Or.inr (Or.inr (Or.inr ⟨frm, p, rfl, by omega, rfl⟩))

/-- Helper: a delivered frame always has exactly `imgSz` bytes: the find-end
loop only returns success at an END section when the byte count equals the
image size (oversize and incomplete frames are rejected first). -/
theorem find_end_success_length (imgSz : Nat) :
    ∀ (evs : List RpmsgEv) (cnt seq : Nat) (acc px : List Nat),
      cnt = acc.length →
      (rpmsg_cam_find_end imgSz evs cnt seq acc).out = .success px →
      px.length = imgSz := by
  intro evs
  induction evs with
  | nil => intro cnt seq acc px _ h; simp [rpmsg_cam_find_end] at h
  | cons ev rest ih =>
    intro cnt seq acc px hcnt h
    cases ev with
    | readErr => simp [rpmsg_cam_find_end] at h
    | recv m =>
      cases m with
      | info p => rw [find_end_skip _ _ _ _ _ _ (by rfl)] at h; exact ih _ _ _ _ hcnt h
      | log l p => rw [find_end_skip _ _ _ _ _ _ (by rfl)] at h; exact ih _ _ _ _ hcnt h
      | unknown t p => rw [find_end_skip _ _ _ _ _ _ (by rfl)] at h; exact ih _ _ _ _ hcnt h
      | cap frm s p =>
        by_cases h0 : frm = 0
        · rw [find_end_skip _ _ _ _ _ _ (by simp [rpmsg_cam_read_msg, BCAM_FRM_NONE, h0])] at h
          exact ih _ _ _ _ hcnt h
        · by_cases h4 : BCAM_FRM_INVALID ≤ frm
          · rw [show (.recv (.cap frm s p) : RpmsgEv) = mkCap frm s p from rfl,
              find_end_invalid imgSz cnt seq frm s acc p rest h4] at h
            simp at h
          · by_cases hs : s = seq
            · subst hs
              simp only [BCAM_FRM_INVALID] at h4
              have hfrm : frm = 1 ∨ frm = 2 ∨ frm = 3 := by omega
              rcases hfrm with hf | hf | hf <;> subst hf
              · by_cases hov : imgSz < p.length
                · rw [show (.recv (.cap 1 s p) : RpmsgEv) = mkCap BCAM_FRM_START s p from rfl,
                    find_end_start_oversize imgSz cnt s acc p rest hov] at h
                  simp at h
                · rw [show (.recv (.cap 1 s p) : RpmsgEv) = mkCap BCAM_FRM_START s p from rfl,
                    find_end_start_reset imgSz cnt s acc p rest (by omega)] at h
                  exact ih _ _ _ _ rfl h
              · by_cases hov : imgSz < cnt + p.length
                · rw [show (.recv (.cap 2 s p) : RpmsgEv) = mkCap BCAM_FRM_BODY s p from rfl,
                    find_end_oversize imgSz cnt s BCAM_FRM_BODY acc p rest (Or.inl rfl) hov] at h
                  simp at h
                · rw [show (.recv (.cap 2 s p) : RpmsgEv) = mkCap BCAM_FRM_BODY s p from rfl,
                    find_end_body_ok imgSz cnt s acc p rest (by omega)] at h
                  exact ih _ _ _ _ (by simp [hcnt]) h
              · by_cases hov : imgSz < cnt + p.length
                · rw [show (.recv (.cap 3 s p) : RpmsgEv) = mkCap BCAM_FRM_END s p from rfl,
                    find_end_oversize imgSz cnt s BCAM_FRM_END acc p rest (Or.inr rfl) hov] at h
                  simp at h
                · by_cases hshort : cnt + p.length < imgSz
                  · rw [show (.recv (.cap 3 s p) : RpmsgEv) = mkCap BCAM_FRM_END s p from rfl,
                      find_end_end_short imgSz cnt s acc p rest hshort] at h
                    simp at h
                  · rw [show (.recv (.cap 3 s p) : RpmsgEv) = mkCap BCAM_FRM_END s p from rfl,
                      find_end_end_ok imgSz cnt s acc p rest (by omega)] at h
                    simp at h
                    subst h
                    simp [List.length_append]
                    omega
            · simp only [BCAM_FRM_INVALID] at h4
              have hfrm : frm = BCAM_FRM_START ∨ frm = BCAM_FRM_BODY ∨ frm = BCAM_FRM_END := by
                simp [BCAM_FRM_START, BCAM_FRM_BODY, BCAM_FRM_END]; omega
              rw [show (.recv (.cap frm s p) : RpmsgEv) = mkCap frm s p from rfl,
                find_end_seq_mismatch imgSz cnt seq frm s acc p rest hfrm hs] at h
              simp at h

/-- Helper: every write performed by the find-end loop stays within
`[0, imgSz)`, provided the byte count is within bounds. -/
theorem find_end_writes_le (imgSz : Nat) :
    ∀ (evs : List RpmsgEv) (cnt seq : Nat) (acc : List Nat),
      cnt ≤ imgSz →
      ∀ w ∈ (rpmsg_cam_find_end imgSz evs cnt seq acc).writes,
        w.1 + w.2 ≤ imgSz := by
  intro evs
  induction evs with
  | nil => intro cnt seq acc _ w hw; simp [rpmsg_cam_find_end] at hw
  | cons ev rest ih =>
    intro cnt seq acc hcnt w hw
    cases ev with
    | readErr => simp [rpmsg_cam_find_end] at hw
    | recv m =>
      cases m with
      | info p => rw [find_end_skip _ _ _ _ _ _ (by rfl)] at hw; exact ih _ _ _ hcnt w hw
      | log l p => rw [find_end_skip _ _ _ _ _ _ (by rfl)] at hw; exact ih _ _ _ hcnt w hw
      | unknown t p => rw [find_end_skip _ _ _ _ _ _ (by rfl)] at hw; exact ih _ _ _ hcnt w hw
      | cap frm s p =>
        by_cases h0 : frm = 0
        · rw [find_end_skip _ _ _ _ _ _ (by simp [rpmsg_cam_read_msg, BCAM_FRM_NONE, h0])] at hw
          exact ih _ _ _ hcnt w hw
        · by_cases h4 : BCAM_FRM_INVALID ≤ frm
          · rw [show (.recv (.cap frm s p) : RpmsgEv) = mkCap frm s p from rfl,
              find_end_invalid imgSz cnt seq frm s acc p rest h4] at hw
            simp at hw
          · by_cases hs : s = seq
            · subst hs
              simp only [BCAM_FRM_INVALID] at h4
              have hfrm : frm = 1 ∨ frm = 2 ∨ frm = 3 := by omega
              rcases hfrm with hf | hf | hf <;> subst hf
              · by_cases hov : imgSz < p.length
                · rw [show (.recv (.cap 1 s p) : RpmsgEv) = mkCap BCAM_FRM_START s p from rfl,
                    find_end_start_oversize imgSz cnt s acc p rest hov] at hw
                  simp at hw
                · rw [show (.recv (.cap 1 s p) : RpmsgEv) = mkCap BCAM_FRM_START s p from rfl,
                    find_end_start_reset imgSz cnt s acc p rest (by omega)] at hw
                  simp only [List.mem_cons] at hw
                  rcases hw with hw | hw
                  · subst hw; simpa using (by omega : p.length ≤ imgSz)
                  · exact ih _ _ _ (by omega) w hw
              · by_cases hov : imgSz < cnt + p.length
                · rw [show (.recv (.cap 2 s p) : RpmsgEv) = mkCap BCAM_FRM_BODY s p from rfl,
                    find_end_oversize imgSz cnt s BCAM_FRM_BODY acc p rest (Or.inl rfl) hov] at hw
                  simp at hw
                · rw [show (.recv (.cap 2 s p) : RpmsgEv) = mkCap BCAM_FRM_BODY s p from rfl,
                    find_end_body_ok imgSz cnt s acc p rest (by omega)] at hw
                  simp only [List.mem_cons] at hw
                  rcases hw with hw | hw
                  · subst hw; simpa using (by omega : cnt + p.length ≤ imgSz)
                  · exact ih _ _ _ (by omega) w hw
              · by_cases hov : imgSz < cnt + p.length
                · rw [show (.recv (.cap 3 s p) : RpmsgEv) = mkCap BCAM_FRM_END s p from rfl,
                    find_end_oversize imgSz cnt s BCAM_FRM_END acc p rest (Or.inr rfl) hov] at hw
                  simp at hw
                · by_cases hshort : cnt + p.length < imgSz
                  · rw [show (.recv (.cap 3 s p) : RpmsgEv) = mkCap BCAM_FRM_END s p from rfl,
                      find_end_end_short imgSz cnt s acc p rest hshort] at hw
                    simp at hw
                    subst hw; simp; omega
                  · rw [show (.recv (.cap 3 s p) : RpmsgEv) = mkCap BCAM_FRM_END s p from rfl,
                      find_end_end_ok imgSz cnt s acc p rest (by omega)] at hw
                    simp at hw
                    subst hw; simp; omega
            · simp only [BCAM_FRM_INVALID] at h4
              have hfrm : frm = BCAM_FRM_START ∨ frm = BCAM_FRM_BODY ∨ frm = BCAM_FRM_END := by
                simp [BCAM_FRM_START, BCAM_FRM_BODY, BCAM_FRM_END]; omega
              rw [show (.recv (.cap frm s p) : RpmsgEv) = mkCap frm s p from rfl,
                find_end_seq_mismatch imgSz cnt seq frm s acc p rest hfrm hs] at hw
              simp at hw

/-- Helper: every write performed by the find-start loop (and the find-end
loop it transitions into) stays within `[0, imgSz)`. -/
theorem find_start_writes_le (imgSz : Nat) :
    ∀ (evs : List RpmsgEv) (cnt : Nat),
      ∀ w ∈ (rpmsg_cam_find_start imgSz evs cnt).writes, w.1 + w.2 ≤ imgSz := by
  intro evs
  induction evs with
  | nil => intro cnt w hw; simp [rpmsg_cam_find_start] at hw
  | cons ev rest ih =>
    intro cnt w hw
    cases ev with
    | readErr => simp [rpmsg_cam_find_start] at hw
    | recv m =>
      rcases read_msg_cases 0 m with hm | hm | hm | ⟨frm, p, rfl, hfrm, hm⟩
      · rw [find_start_skip _ _ _ _ (Or.inl hm)] at hw
        exact ih _ w hw
      · rw [find_start_skip _ _ _ _ (Or.inr hm)] at hw
        exact ih _ w hw
      · by_cases habort : 2 * imgSz < cnt + (msgPayload m).length
        · rw [find_start_counted_abort imgSz cnt m rest (by simp [hm]) habort] at hw
          simp at hw
        · rw [find_start_counted_continue imgSz cnt m rest (by simp [hm]) (by omega)] at hw
          exact ih _ w hw
      · rcases hfrm with hf | hf | hf <;> subst hf
        · by_cases hov : imgSz < p.length
          · rw [show (.recv (.cap 1 0 p) : RpmsgEv) = mkCap BCAM_FRM_START 0 p from rfl,
              find_start_start_oversize imgSz cnt p rest hov] at hw
            simp at hw
          · rw [show (.recv (.cap 1 0 p) : RpmsgEv) = mkCap BCAM_FRM_START 0 p from rfl,
              find_start_start_ok imgSz cnt p rest (by omega)] at hw
            simp only [List.mem_cons] at hw
            rcases hw with hw | hw
            · subst hw; simpa using (by omega : p.length ≤ imgSz)
            · exact find_end_writes_le imgSz rest p.length 1 p (by omega) w hw
        · by_cases habort : 2 * imgSz < cnt + (msgPayload (.cap 2 0 p)).length
          · rw [find_start_counted_abort imgSz cnt _ rest (by simp [hm]) habort] at hw
            simp at hw
          · rw [find_start_counted_continue imgSz cnt _ rest (by simp [hm]) (by omega)] at hw
            exact ih _ w hw
        · by_cases habort : 2 * imgSz < cnt + (msgPayload (.cap 3 0 p)).length
          · rw [find_start_counted_abort imgSz cnt _ rest (by simp [hm]) habort] at hw
            simp at hw
          · rw [find_start_counted_continue imgSz cnt _ rest (by simp [hm]) (by omega)] at hw
            exact ih _ w hw

/-- Helper: a success outcome of a whole `rpmsg_cam_get_frame` call always
carries exactly `imgSz` bytes. -/
theorem find_start_success_length (imgSz : Nat) :
    ∀ (evs : List RpmsgEv) (cnt : Nat) (px : List Nat),
      (rpmsg_cam_find_start imgSz evs cnt).out = .success px →
      px.length = imgSz := by
  intro evs
  induction evs with
  | nil => intro cnt px h; simp [rpmsg_cam_find_start] at h
  | cons ev rest ih =>
    intro cnt px h
    cases ev with
    | readErr => simp [rpmsg_cam_find_start] at h
    | recv m =>
      rcases read_msg_cases 0 m with hm | hm | hm | ⟨frm, p, rfl, hfrm, hm⟩
      · rw [find_start_skip _ _ _ _ (Or.inl hm)] at h
        exact ih _ _ h
      · rw [find_start_skip _ _ _ _ (Or.inr hm)] at h
        exact ih _ _ h
      · by_cases habort : 2 * imgSz < cnt + (msgPayload m).length
        · rw [find_start_counted_abort imgSz cnt m rest (by simp [hm]) habort] at h
          simp at h
        · rw [find_start_counted_continue imgSz cnt m rest (by simp [hm]) (by omega)] at h
          exact ih _ _ h
      · rcases hfrm with hf | hf | hf <;> subst hf
        · by_cases hov : imgSz < p.length
          · rw [show (.recv (.cap 1 0 p) : RpmsgEv) = mkCap BCAM_FRM_START 0 p from rfl,
              find_start_start_oversize imgSz cnt p rest hov] at h
            simp at h
          · rw [show (.recv (.cap 1 0 p) : RpmsgEv) = mkCap BCAM_FRM_START 0 p from rfl,
              find_start_start_ok imgSz cnt p rest (by omega)] at h
            exact find_end_success_length imgSz rest p.length 1 p px rfl h
        · by_cases habort : 2 * imgSz < cnt + (msgPayload (.cap 2 0 p)).length
          · rw [find_start_counted_abort imgSz cnt _ rest (by simp [hm]) habort] at h
            simp at h
          · rw [find_start_counted_continue imgSz cnt _ rest (by simp [hm]) (by omega)] at h
            exact ih _ _ h
        · by_cases habort : 2 * imgSz < cnt + (msgPayload (.cap 3 0 p)).length
          · rw [find_start_counted_abort imgSz cnt _ rest (by simp [hm]) habort] at h
            simp at h
          · rw [find_start_counted_continue imgSz cnt _ rest (by simp [hm]) (by omega)] at h
            exact ih _ _ h

/-- Helper: cumulative skipped CAP payload bytes in the find-start phase
force a sync error once they exceed twice the image size. -/
theorem find_start_skipped_abort (imgSz : Nat) (ms : List PruMsg) :
    ∀ (cnt : Nat) (rest : List RpmsgEv),
      (∀ m ∈ ms, rpmsg_cam_read_msg 0 m = 2 ∨ rpmsg_cam_read_msg 0 m = 3 ∨
        rpmsg_cam_read_msg 0 m = -3) →
      cnt ≤ 2 * imgSz →
      2 * imgSz < cnt + (ms.map fun m => (msgPayload m).length).sum →
      (rpmsg_cam_find_start imgSz (ms.map .recv ++ rest) cnt).out = .syncErr := by
  induction ms with
  | nil =>
    intro cnt rest _ hle hsum
    simp at hsum
    omega
  | cons m ms ih =>
    intro cnt rest hall hle hsum
    simp only [List.map_cons, List.cons_append]
    by_cases habort : 2 * imgSz < cnt + (msgPayload m).length
    · rw [find_start_counted_abort imgSz cnt m _ (hall m (by simp)) habort]
    · rw [find_start_counted_continue imgSz cnt m _ (hall m (by simp)) (by omega)]
      refine ih (cnt + (msgPayload m).length) rest
        (fun x hx => hall x (by simp [hx])) (by omega) ?_
      simp only [List.map_cons, List.sum_cons] at hsum
      omega

/-- Claim C1, counterexample to the claim as stated: the stream
START(seq 0, 2 bytes), END(seq 1, 1 byte) is well-formed in the claim's
structural sense (each wire sequence equals the expected count), yet with a
configured image size of 4 bytes `rpmsg_cam_get_frame` returns -2
(FrameError, incomplete frame), not success. -/
theorem c1_counterexample :
    (rpmsg_cam_get_frame 4 (mkFrameEvents [9, 9] [] [7])).out = .frameErr ∧
    gfRetCode (rpmsg_cam_get_frame 4 (mkFrameEvents [9, 9] [] [7])).out = -2 := by
  decide

/-- Claim C1 (amended): for every well-formed frame stream (START with wire
sequence 0, BODY messages and a final END whose wire sequence numbers equal
the expected counts) whose total payload equals the configured image size,
`rpmsg_cam_get_frame` returns success (0), the frame's pixel content is the
concatenation of the payloads in arrival order, its size is exactly the
image size, and the stream is consumed up to the END message. -/
theorem c1_well_formed_frame (imgSz : Nat) (startP : List Nat)
    (bodies : List (List Nat)) (endP : List Nat) (rest : List RpmsgEv)
    (htot : startP.length + bodies.flatten.length + endP.length = imgSz) :
    (rpmsg_cam_get_frame imgSz (mkFrameEvents startP bodies endP ++ rest)).out =
      .success (startP ++ (bodies.flatten ++ endP)) ∧
    gfRetCode (rpmsg_cam_get_frame imgSz
      (mkFrameEvents startP bodies endP ++ rest)).out = 0 ∧
    (startP ++ (bodies.flatten ++ endP)).length = imgSz ∧
    (rpmsg_cam_get_frame imgSz (mkFrameEvents startP bodies endP ++ rest)).rest =
      rest := by
  have h := get_frame_wf imgSz startP bodies endP rest htot
  refine ⟨h.1, ?_, ?_, h.2⟩
  · rw [h.1]; rfl
  · simp only [List.length_append, List.length_flatten]
    simp only [List.length_flatten] at htot
    omega

/-- Witness for `c1_well_formed_frame` at image size 4 and the frame
START [1, 2], BODY [3], END [4]. -/
theorem c1_witness :
    (rpmsg_cam_get_frame 4 (mkFrameEvents [1, 2] [[3]] [4] ++ [])).out =
      .success ([1, 2] ++ ([[3]].flatten ++ [4])) ∧
    gfRetCode (rpmsg_cam_get_frame 4 (mkFrameEvents [1, 2] [[3]] [4] ++ [])).out = 0 ∧
    ([1, 2] ++ ([[3]].flatten ++ [4])).length = 4 ∧
    (rpmsg_cam_get_frame 4 (mkFrameEvents [1, 2] [[3]] [4] ++ [])).rest = [] :=
  c1_well_formed_frame 4 [1, 2] [[3]] [4] [] (by decide)

/-- Claim C2, counterexample to the claim as stated: after the START
[1, 2] is accepted (image size 4, expected count now 1), a BODY with wire
sequence 5 makes `rpmsg_cam_get_frame` return -3 (SyncError), not -2
(FrameError) as the claim states. -/
theorem c2_counterexample :
    (rpmsg_cam_get_frame 4 [mkCap 1 0 [1, 2], mkCap 2 5 [3]]).out = .syncErr ∧
    (rpmsg_cam_get_frame 4 [mkCap 1 0 [1, 2], mkCap 2 5 [3]]).out ≠ .frameErr ∧
    gfRetCode (rpmsg_cam_get_frame 4 [mkCap 1 0 [1, 2], mkCap 2 5 [3]]).out = -3 := by
  decide

/-- Claim C2 (amended): after a valid START has been accepted, a BODY
message whose wire sequence differs from the expected count makes
`rpmsg_cam_get_frame` return -3 (SyncError, not FrameError), and the next
call on a subsequent well-formed frame returns success with uncorrupted
content. -/
theorem c2_seq_mismatch (imgSz s : Nat) (startP q startP2 endP : List Nat)
    (bodies : List (List Nat))
    (hstart : startP.length ≤ imgSz) (hs : s ≠ 1)
    (htot : startP2.length + bodies.flatten.length + endP.length = imgSz) :
    (rpmsg_cam_get_frame imgSz
        (mkCap BCAM_FRM_START 0 startP :: mkCap BCAM_FRM_BODY s q ::
          mkFrameEvents startP2 bodies endP)).out = .syncErr ∧
    gfRetCode (rpmsg_cam_get_frame imgSz
        (mkCap BCAM_FRM_START 0 startP :: mkCap BCAM_FRM_BODY s q ::
          mkFrameEvents startP2 bodies endP)).out = -3 ∧
    (rpmsg_cam_get_frame imgSz
        (mkCap BCAM_FRM_START 0 startP :: mkCap BCAM_FRM_BODY s q ::
          mkFrameEvents startP2 bodies endP)).rest =
      mkFrameEvents startP2 bodies endP ∧
    (rpmsg_cam_get_frame imgSz (rpmsg_cam_get_frame imgSz
        (mkCap BCAM_FRM_START 0 startP :: mkCap BCAM_FRM_BODY s q ::
          mkFrameEvents startP2 bodies endP)).rest).out =
      .success (startP2 ++ (bodies.flatten ++ endP)) := by
  have hwf := get_frame_wf imgSz startP2 bodies endP [] htot
  simp only [List.append_nil] at hwf
  have hstep :
      rpmsg_cam_get_frame imgSz
        (mkCap BCAM_FRM_START 0 startP :: mkCap BCAM_FRM_BODY s q ::
          mkFrameEvents startP2 bodies endP) =
      ⟨(rpmsg_cam_find_end imgSz
          (mkCap BCAM_FRM_BODY s q :: mkFrameEvents startP2 bodies endP)
          startP.length 1 startP).out,
       (0, startP.length) ::
         (rpmsg_cam_find_end imgSz
           (mkCap BCAM_FRM_BODY s q :: mkFrameEvents startP2 bodies endP)
           startP.length 1 startP).writes,
       (rpmsg_cam_find_end imgSz
         (mkCap BCAM_FRM_BODY s q :: mkFrameEvents startP2 bodies endP)
         startP.length 1 startP).rest⟩ := by
    simp only [rpmsg_cam_get_frame]
    rw [find_start_start_ok imgSz 0 startP _ hstart]
  rw [find_end_seq_mismatch imgSz startP.length 1 BCAM_FRM_BODY s startP q _
    (Or.inr (Or.inl rfl)) hs] at hstep
  rw [hstep]
  exact ⟨rfl, rfl, rfl, hwf.1⟩

/-- Witness for `c2_seq_mismatch` at image size 4: START [1, 2] then a BODY
with wire sequence 5, followed by the well-formed frame
START [5, 6], END [7, 8]. -/
theorem c2_witness :
    (rpmsg_cam_get_frame 4
        (mkCap BCAM_FRM_START 0 [1, 2] :: mkCap BCAM_FRM_BODY 5 [3] ::
          mkFrameEvents [5, 6] [] [7, 8])).out = .syncErr ∧
    gfRetCode (rpmsg_cam_get_frame 4
        (mkCap BCAM_FRM_START 0 [1, 2] :: mkCap BCAM_FRM_BODY 5 [3] ::
          mkFrameEvents [5, 6] [] [7, 8])).out = -3 ∧
    (rpmsg_cam_get_frame 4
        (mkCap BCAM_FRM_START 0 [1, 2] :: mkCap BCAM_FRM_BODY 5 [3] ::
          mkFrameEvents [5, 6] [] [7, 8])).rest =
      mkFrameEvents [5, 6] [] [7, 8] ∧
    (rpmsg_cam_get_frame 4 (rpmsg_cam_get_frame 4
        (mkCap BCAM_FRM_START 0 [1, 2] :: mkCap BCAM_FRM_BODY 5 [3] ::
          mkFrameEvents [5, 6] [] [7, 8])).rest).out =
      .success ([5, 6] ++ ([].flatten ++ [7, 8])) :=
  c2_seq_mismatch 4 5 [1, 2] [3] [5, 6] [7, 8] [] (by decide) (by decide) (by decide)

/-- Claim C3 (confirmed): whenever accepting an incoming START/BODY/END
payload would make the cumulative byte count exceed the configured image
size, `rpmsg_cam_get_frame` returns -2 (FrameError) without delivering a
frame — in the find-start phase (oversized START), in the find-end phase
(accepted BODY/END, and restarting START, with the reset count) — and a
successfully delivered frame always has exactly the configured image size
(never a truncated one). -/
theorem c3_oversize_rejected (imgSz : Nat) :
    (∀ (cnt : Nat) (startP : List Nat) (rest : List RpmsgEv),
      imgSz < startP.length →
      (rpmsg_cam_find_start imgSz (mkCap BCAM_FRM_START 0 startP :: rest) cnt).out =
        .frameErr) ∧
    (∀ (cnt seq frm : Nat) (acc p : List Nat) (rest : List RpmsgEv),
      (frm = BCAM_FRM_BODY ∨ frm = BCAM_FRM_END) →
      imgSz < cnt + p.length →
      (rpmsg_cam_find_end imgSz (mkCap frm seq p :: rest) cnt seq acc).out =
        .frameErr) ∧
    (∀ (cnt seq : Nat) (acc p : List Nat) (rest : List RpmsgEv),
      imgSz < p.length →
      (rpmsg_cam_find_end imgSz (mkCap BCAM_FRM_START seq p :: rest) cnt seq acc).out =
        .frameErr) ∧
    (∀ (evs : List RpmsgEv) (px : List Nat),
      (rpmsg_cam_get_frame imgSz evs).out = .success px → px.length = imgSz) := by
  refine ⟨?_, ?_, ?_, ?_⟩
  · intro cnt startP rest h
    rw [find_start_start_oversize imgSz cnt startP rest h]
  · intro cnt seq frm acc p rest hfrm h
    rw [find_end_oversize imgSz cnt seq frm acc p rest hfrm h]
  · intro cnt seq acc p rest h
    rw [find_end_start_oversize imgSz cnt seq acc p rest h]
  · intro evs px h
    exact find_start_success_length imgSz evs 0 px h

/-- Witness for `c3_oversize_rejected` at image size 4: an oversized START
in both phases, an oversized BODY in the find-end phase, and a delivered
4-byte frame. -/
theorem c3_witness :
    (rpmsg_cam_find_start 4 [mkCap BCAM_FRM_START 0 [1, 2, 3, 4, 5]] 0).out =
      .frameErr ∧
    (rpmsg_cam_find_end 4 [mkCap BCAM_FRM_BODY 1 [9, 9]] 3 1 [5, 6, 7]).out =
      .frameErr ∧
    (rpmsg_cam_find_end 4 [mkCap BCAM_FRM_START 1 [1, 2, 3, 4, 5]] 3 1 [5, 6, 7]).out =
      .frameErr ∧
    ([1, 2, 3, 4] : List Nat).length = 4 :=
  ⟨(c3_oversize_rejected 4).1 0 [1, 2, 3, 4, 5] [] (by decide),
   (c3_oversize_rejected 4).2.1 3 1 BCAM_FRM_BODY [5, 6, 7] [9, 9] []
     (Or.inl rfl) (by decide),
   (c3_oversize_rejected 4).2.2.1 3 1 [5, 6, 7] [1, 2, 3, 4, 5] [] (by decide),
   (c3_oversize_rejected 4).2.2.2 (mkFrameEvents [1, 2] [] [3, 4]) [1, 2, 3, 4]
     (by decide)⟩

/-- Claim C4, counterexample to the claim as stated: image size 4, START
[1, 2] accepted (expected count now 1); a new START arrives with wire
sequence 0 (as the far end sends on a restart).  The claim says this resets
the accumulation and is not an error, but `rpmsg_cam_get_frame` returns -3
(SyncError): the sequence check in `rpmsg_cam_read_msg` fires before the
section is examined. -/
theorem c4_counterexample :
    (rpmsg_cam_get_frame 4 [mkCap 1 0 [1, 2], mkCap 1 0 [3, 4]]).out = .syncErr ∧
    gfRetCode (rpmsg_cam_get_frame 4 [mkCap 1 0 [1, 2], mkCap 1 0 [3, 4]]).out =
      -3 := by
  decide

/-- Claim C4 (amended): during the find-end phase, a START message whose
wire sequence equals the expected count resets the local accumulation (byte
count, expected sequence and accumulated bytes) and reassembly continues
from that new START without an error at that event — in particular a
well-formed continuation completes the new frame — while a START whose wire
sequence differs from the expected count makes the call return -3
(SyncError). -/
theorem c4_start_restart (imgSz : Nat) :
    (∀ (cnt seq : Nat) (acc p : List Nat) (rest : List RpmsgEv),
      p.length ≤ imgSz →
      rpmsg_cam_find_end imgSz (mkCap BCAM_FRM_START seq p :: rest) cnt seq acc =
        ⟨(rpmsg_cam_find_end imgSz rest p.length 1 p).out,
         (0, p.length) :: (rpmsg_cam_find_end imgSz rest p.length 1 p).writes,
         (rpmsg_cam_find_end imgSz rest p.length 1 p).rest⟩) ∧
    (∀ (cnt seq : Nat) (acc p endP : List Nat) (bodies : List (List Nat))
        (rest : List RpmsgEv),
      p.length + bodies.flatten.length + endP.length = imgSz →
      (rpmsg_cam_find_end imgSz
          (mkCap BCAM_FRM_START seq p ::
            (mkBodies 1 bodies ++ mkCap BCAM_FRM_END (1 + bodies.length) endP :: rest))
          cnt seq acc).out = .success (p ++ (bodies.flatten ++ endP))) ∧
    (∀ (cnt seq s : Nat) (acc p : List Nat) (rest : List RpmsgEv),
      s ≠ seq →
      rpmsg_cam_find_end imgSz (mkCap BCAM_FRM_START s p :: rest) cnt seq acc =
        ⟨.syncErr, [], rest⟩) := by
  refine ⟨?_, ?_, ?_⟩
  · intro cnt seq acc p rest h
    exact find_end_start_reset imgSz cnt seq acc p rest h
  · intro cnt seq acc p endP bodies rest htot
    rw [find_end_start_reset imgSz cnt seq acc p _ (by omega)]
    exact (find_end_wf imgSz bodies p.length 1 p endP rest rfl (by omega)).1
  · intro cnt seq s acc p rest hs
    exact find_end_seq_mismatch imgSz cnt seq BCAM_FRM_START s acc p rest
      (Or.inl rfl) hs

/-- Witness for `c4_start_restart` at image size 4 from the mid-frame state
cnt = 3, expected sequence 2. -/
theorem c4_witness :
    (rpmsg_cam_find_end 4 (mkCap BCAM_FRM_START 2 [1, 2] :: []) 3 2 [7, 7, 7] =
      ⟨(rpmsg_cam_find_end 4 [] 2 1 [1, 2]).out,
       (0, 2) :: (rpmsg_cam_find_end 4 [] 2 1 [1, 2]).writes,
       (rpmsg_cam_find_end 4 [] 2 1 [1, 2]).rest⟩) ∧
    (rpmsg_cam_find_end 4
        (mkCap BCAM_FRM_START 2 [1, 2] ::
          (mkBodies 1 [[3]] ++ mkCap BCAM_FRM_END (1 + [[3]].length) [4] :: []))
        3 2 [7, 7, 7]).out = .success ([1, 2] ++ ([[3]].flatten ++ [4])) ∧
    (rpmsg_cam_find_end 4 (mkCap BCAM_FRM_START 0 [3, 4] :: []) 3 2 [7, 7, 7] =
      ⟨.syncErr, [], []⟩) :=
  ⟨by
    have h := (c4_start_restart 4).1 3 2 [7, 7, 7] [1, 2] [] (by decide)
    simpa using h,
   (c4_start_restart 4).2.1 3 2 [7, 7, 7] [1, 2] [4] [[3]] [] (by decide),
   (c4_start_restart 4).2.2 3 2 0 [7, 7, 7] [3, 4] [] (by decide)⟩

/-- Claim C8 (confirmed): in the find-start phase, for any run of messages
the phase skips and counts (BODY or END sections, or any CAP frame section
with a mismatched sequence number), once their cumulative payloads exceed
twice the negotiated image size, `rpmsg_cam_get_frame` aborts with -3
(SyncError). -/
theorem c8_sync_error_abort (imgSz : Nat) (ms : List PruMsg) (rest : List RpmsgEv)
    (hall : ∀ m ∈ ms, rpmsg_cam_read_msg 0 m = 2 ∨ rpmsg_cam_read_msg 0 m = 3 ∨
      rpmsg_cam_read_msg 0 m = -3)
    (hsum : 2 * imgSz < (ms.map fun m => (msgPayload m).length).sum) :
    (rpmsg_cam_get_frame imgSz (ms.map .recv ++ rest)).out = .syncErr ∧
    gfRetCode (rpmsg_cam_get_frame imgSz (ms.map .recv ++ rest)).out = -3 := by
  have h := find_start_skipped_abort imgSz ms 0 rest hall (by omega) (by omega)
  exact ⟨h, by rw [show (rpmsg_cam_get_frame imgSz (ms.map .recv ++ rest)).out =
    .syncErr from h]; rfl⟩

/-- Witness for `c8_sync_error_abort`: image size 1 and a single skipped
BODY message of 3 bytes (3 > 2). -/
theorem c8_witness :
    (rpmsg_cam_get_frame 1 ([PruMsg.cap 2 0 [1, 2, 3]].map .recv ++ [])).out =
      .syncErr ∧
    gfRetCode (rpmsg_cam_get_frame 1
      ([PruMsg.cap 2 0 [1, 2, 3]].map .recv ++ [])).out = -3 :=
  c8_sync_error_abort 1 [PruMsg.cap 2 0 [1, 2, 3]] [] (by decide) (by decide)

/-- Claim C10 (confirmed): when the configured image size is at most
`BCAM_FRAME_LEN_MAX` (the capacity of `frame->pixels`), every copy
performed by `rpmsg_cam_get_frame` into the frame buffer satisfies
`offset + length <= img_sz <= BCAM_FRAME_LEN_MAX`: the call never writes
outside `frame->pixels[0 .. img_sz)`. -/
theorem c10_no_oob_writes (imgSz : Nat) (evs : List RpmsgEv)
    (hsz : imgSz ≤ BCAM_FRAME_LEN_MAX) :
    ∀ w ∈ (rpmsg_cam_get_frame imgSz evs).writes,
      w.1 + w.2 ≤ imgSz ∧ w.1 + w.2 ≤ BCAM_FRAME_LEN_MAX := by
  intro w hw
  have h := find_start_writes_le imgSz evs 0 w hw
  exact ⟨h, le_trans h hsz⟩

/-- Witness for `c10_no_oob_writes` at image size 4 on a complete frame
stream whose first performed write is `(0, 2)`. -/
theorem c10_witness :
    (0, 2).1 + (0, 2).2 ≤ 4 ∧ (0, 2).1 + (0, 2).2 ≤ BCAM_FRAME_LEN_MAX :=
  c10_no_oob_writes 4 (mkFrameEvents [1, 2] [[3]] [4]) (by decide) (0, 2)
    (by decide)

/-- Helper: `CIRC_CNT` is always at most `FRAME_RING_SIZE - 1`. -/
theorem circ_cnt_lt (h t : Nat) : CIRC_CNT h t < FRAME_RING_SIZE := by
  simp only [CIRC_CNT, FRAME_RING_SIZE]
  omega

/-- Helper: available space is the complement of the element count with one
slot always kept free. -/
theorem circ_space_eq (h t : Nat) :
    CIRC_SPACE h t = FRAME_RING_SIZE - 1 - CIRC_CNT h t := by
  simp only [CIRC_SPACE, CIRC_CNT, FRAME_RING_SIZE]
  omega

/-- Helper: advancing the writer index increments the element count. -/
theorem circ_cnt_push (w r : Nat) (hc : CIRC_CNT w r < FRAME_RING_SIZE - 1) :
    CIRC_CNT ((w + 1) % FRAME_RING_SIZE) r = CIRC_CNT w r + 1 := by
  simp only [CIRC_CNT, FRAME_RING_SIZE] at *
  omega

/-- Helper: advancing the reader index decrements the element count. -/
theorem circ_cnt_pop (w r : Nat) (hc : 1 ≤ CIRC_CNT w r) :
    CIRC_CNT w ((r + 1) % FRAME_RING_SIZE) = CIRC_CNT w r - 1 := by
  simp only [CIRC_CNT, FRAME_RING_SIZE] at *
  omega

/-- Helper: slots holding queued elements are distinct from the write slot. -/
theorem ring_idx_ne (w r i : Nat) (hw : w < FRAME_RING_SIZE)
    (hr : r < FRAME_RING_SIZE) (hi : i < CIRC_CNT w r) :
    ringIdx (r + i) ≠ ringIdx w := by
  simp only [CIRC_CNT, FRAME_RING_SIZE] at *
  intro hcon
  rw [Fin.ext_iff] at hcon
  simp only [ringIdx, FRAME_RING_SIZE] at hcon
  omega

/-- Helper: the write slot sits just past the queued elements. -/
theorem ring_idx_push (w r : Nat) (hw : w < FRAME_RING_SIZE)
    (hr : r < FRAME_RING_SIZE) :
    ringIdx (r + CIRC_CNT w r) = ringIdx w := by
  rw [Fin.ext_iff]
  simp only [ringIdx, CIRC_CNT, FRAME_RING_SIZE]
  omega

/-- Helper: indexing from the advanced reader shifts by one. -/
theorem ring_idx_shift (r i : Nat) :
    ringIdx ((r + 1) % FRAME_RING_SIZE + i) = ringIdx (r + (i + 1)) := by
  rw [Fin.ext_iff]
  simp only [ringIdx, FRAME_RING_SIZE]
  omega

/-- Helper: the abstract queue holds `CIRC_CNT` elements. -/
theorem ringQueue_length {α : Type} (rb : FrameRing α) :
    (ringQueue rb).length = CIRC_CNT rb.writer rb.reader := by
  simp [ringQueue]

/-- Helper: behaviour of `ring_try_push` relative to the abstract queue:
with space left the frame is appended and the push succeeds; on a full ring
the state is unchanged and the push fails. -/
theorem ring_push_spec {α : Type} (rb : FrameRing α) (x : α)
    (hr : rb.reader < FRAME_RING_SIZE) (hw : rb.writer < FRAME_RING_SIZE) :
    (CIRC_CNT rb.writer rb.reader < FRAME_RING_SIZE - 1 →
      (ring_try_push rb x).2 = true ∧
      ringQueue (ring_try_push rb x).1 = ringQueue rb ++ [x] ∧
      (ring_try_push rb x).1.reader = rb.reader ∧
      (ring_try_push rb x).1.writer = (rb.writer + 1) % FRAME_RING_SIZE) ∧
    (CIRC_CNT rb.writer rb.reader = FRAME_RING_SIZE - 1 →
      ring_try_push rb x = (rb, false)) := by
  constructor
  · intro hc
    have hsp : 1 ≤ CIRC_SPACE rb.writer rb.reader := by
      rw [circ_space_eq]; omega
    have hpush : ring_try_push rb x =
        ({ buf := Function.update rb.buf (ringIdx rb.writer) x,
           reader := rb.reader,
           writer := (rb.writer + 1) % FRAME_RING_SIZE }, true) := by
      simp [ring_try_push, hsp]
    rw [hpush]
    refine ⟨rfl, ?_, rfl, rfl⟩
    simp only [ringQueue]
    rw [circ_cnt_push rb.writer rb.reader hc, List.range_succ, List.map_append]
    congr 1
    · apply List.map_congr_left
      intro i hi
      simp only [List.mem_range] at hi
      exact Function.update_noteq (ring_idx_ne rb.writer rb.reader i hw hr hi) x rb.buf
    · simp only [List.map_cons, List.map_nil]
      rw [ring_idx_push rb.writer rb.reader hw hr, Function.update_same]
  · intro hc
    have hsp : ¬(1 ≤ CIRC_SPACE rb.writer rb.reader) := by
      rw [circ_space_eq]; omega
    simp only [ring_try_push, if_neg hsp]

/-- Helper: behaviour of `ring_try_pop` relative to the abstract queue:
on an empty ring nothing is returned; otherwise the slot at the reader
index — the head of the abstract queue — is consumed. -/
theorem ring_pop_spec {α : Type} (rb : FrameRing α)
    (hr : rb.reader < FRAME_RING_SIZE) (hw : rb.writer < FRAME_RING_SIZE) :
    (CIRC_CNT rb.writer rb.reader = 0 →
      ring_try_pop rb = none ∧ ringQueue rb = []) ∧
    (1 ≤ CIRC_CNT rb.writer rb.reader →
      ring_try_pop rb =
        some ({ rb with reader := (rb.reader + 1) % FRAME_RING_SIZE },
          rb.buf (ringIdx rb.reader)) ∧
      ringQueue rb =
        rb.buf (ringIdx rb.reader) ::
          ringQueue { rb with reader := (rb.reader + 1) % FRAME_RING_SIZE }) := by
  constructor
  · intro hc
    constructor
    · simp [ring_try_pop, hc]
    · simp [ringQueue, hc]
  · intro hc
    constructor
    · simp [ring_try_pop, hc]
    · simp only [ringQueue]
      rw [circ_cnt_pop rb.writer rb.reader hc]
      have hsz : CIRC_CNT rb.writer rb.reader =
          (CIRC_CNT rb.writer rb.reader - 1) + 1 := by omega
      rw [hsz, List.range_succ_eq_map, List.map_cons, List.map_map]
      refine List.cons_eq_cons.mpr ⟨by simp, ?_⟩
      apply List.map_congr_left
      intro i hi
      simp only [Function.comp_apply]
      rw [ring_idx_shift rb.reader i]

/-- Helper: simulation between the concrete ring buffer and its FIFO queue
model: starting from related states, any operation sequence produces the
same popped frames, and the states stay related. -/
theorem ring_queue_sim {α : Type} :
    ∀ (ops : List (RingOp α)) (rb : FrameRing α) (q : List α),
      rb.reader < FRAME_RING_SIZE → rb.writer < FRAME_RING_SIZE →
      ringQueue rb = q →
      (ring_run rb ops).2 = (queue_run q ops).2 ∧
      ringQueue (ring_run rb ops).1 = (queue_run q ops).1 ∧
      (ring_run rb ops).1.reader < FRAME_RING_SIZE ∧
      (ring_run rb ops).1.writer < FRAME_RING_SIZE := by
  intro ops
  induction ops with
  | nil =>
    intro rb q hr hw hq
    simp [ring_run, queue_run, hq, hr, hw]
  | cons op ops ih =>
    intro rb q hr hw hq
    cases op with
    | push x =>
      have hqlen : q.length = CIRC_CNT rb.writer rb.reader := by
        rw [← hq, ringQueue_length]
      by_cases hc : CIRC_CNT rb.writer rb.reader < FRAME_RING_SIZE - 1
      · have hp := (ring_push_spec rb x hr hw).1 hc
        have hql : q.length < FRAME_RING_SIZE - 1 := by omega
        simp only [ring_run, queue_run, if_pos hql]
        exact ih (ring_try_push rb x).1 (q ++ [x])
          (by rw [hp.2.2.1]; exact hr)
          (by rw [hp.2.2.2]; exact Nat.mod_lt _ (by decide))
          (by rw [hp.2.1, hq])
      · have hc7 : CIRC_CNT rb.writer rb.reader = FRAME_RING_SIZE - 1 := by
          have := circ_cnt_lt rb.writer rb.reader
          omega
        have hp := (ring_push_spec rb x hr hw).2 hc7
        have hql : ¬(q.length < FRAME_RING_SIZE - 1) := by omega
        simp only [ring_run, queue_run, if_neg hql, hp]
        exact ih rb q hr hw hq
    | pop =>
      by_cases hc : 1 ≤ CIRC_CNT rb.writer rb.reader
      · have hp := (ring_pop_spec rb hr hw).2 hc
        have hql : q = rb.buf (ringIdx rb.reader) ::
            ringQueue { rb with reader := (rb.reader + 1) % FRAME_RING_SIZE } := by
          rw [← hq, hp.2]
        subst hql
        simp only [ring_run, queue_run, hp.1]
        have hrec := ih { rb with reader := (rb.reader + 1) % FRAME_RING_SIZE }
          (ringQueue { rb with reader := (rb.reader + 1) % FRAME_RING_SIZE })
          (Nat.mod_lt _ (by decide)) hw rfl
        refine ⟨?_, hrec.2.1, hrec.2.2.1, hrec.2.2.2⟩
        simp only [hrec.1]
      · have hc0 : CIRC_CNT rb.writer rb.reader = 0 := by omega
        have hp := (ring_pop_spec rb hr hw).1 hc0
        have hq0 : q = [] := by rw [← hq, hp.2]
        subst hq0
        simp only [ring_run, queue_run, hp.1]
        exact ih rb [] hr hw hq

/-- Claim C5 (confirmed): for the frame ring buffer of capacity
`FRAME_RING_SIZE = 8`, starting from empty and pushing with no pops, the
first 7 pushes succeed and the 8th fails (zero space, frame dropped); after
one pop the next push succeeds; and in every state the buffer index
arithmetic bounds the held frames by capacity − 1
(`CIRC_CNT(writer, reader, 8) <= 7`). -/
theorem c5_ring_capacity (α : Type) (d y a1 a2 a3 a4 a5 a6 a7 a8 : α) :
    (ring_push_list (emptyRing α d) [a1, a2, a3, a4, a5, a6, a7, a8]).2 =
      [true, true, true, true, true, true, true, false] ∧
    Option.map (fun rv => (ring_try_push rv.1 y).2)
      (ring_try_pop
        (ring_push_list (emptyRing α d) [a1, a2, a3, a4, a5, a6, a7, a8]).1) =
      some true ∧
    CIRC_SPACE
      (ring_push_list (emptyRing α d) [a1, a2, a3, a4, a5, a6, a7, a8]).1.writer
      (ring_push_list (emptyRing α d) [a1, a2, a3, a4, a5, a6, a7, a8]).1.reader =
      0 ∧
    (∀ rb : FrameRing α, CIRC_CNT rb.writer rb.reader ≤ FRAME_RING_SIZE - 1) ∧
    (∀ rb : FrameRing α, (ringQueue rb).length ≤ FRAME_RING_SIZE - 1) := by
  refine ⟨?_, ?_, ?_, ?_, ?_⟩
  · simp [ring_push_list, ring_try_push, emptyRing, CIRC_SPACE, CIRC_CNT,
      FRAME_RING_SIZE, ringIdx]
  · simp [ring_push_list, ring_try_push, ring_try_pop, emptyRing, CIRC_SPACE,
      CIRC_CNT, FRAME_RING_SIZE, ringIdx]
  · simp [ring_push_list, ring_try_push, emptyRing, CIRC_SPACE, CIRC_CNT,
      FRAME_RING_SIZE, ringIdx]
  · intro rb
    have := circ_cnt_lt rb.writer rb.reader
    simp only [FRAME_RING_SIZE] at *
    omega
  · intro rb
    rw [ringQueue_length]
    have := circ_cnt_lt rb.writer rb.reader
    simp only [FRAME_RING_SIZE] at *
    omega

/-- Claim C6 (confirmed): for every sequence of single-threaded push/pop
operations starting from the empty ring buffer, the popped frames are
exactly those of the FIFO queue model — frames are consumed in push order
with no reordering, duplication, or loss of successfully pushed frames —
and the stored frames agree with the model queue as well. -/
theorem c6_ring_fifo (α : Type) (d : α) (ops : List (RingOp α)) :
    (ring_run (emptyRing α d) ops).2 = (queue_run [] ops).2 ∧
    ringQueue (ring_run (emptyRing α d) ops).1 = (queue_run [] ops).1 := by
  have h := ring_queue_sim ops (emptyRing α d) []
    (by simp [emptyRing, FRAME_RING_SIZE])
    (by simp [emptyRing, FRAME_RING_SIZE])
    (by simp [ringQueue, emptyRing, CIRC_CNT, FRAME_RING_SIZE])
  exact ⟨h.1, h.2.1⟩

/-- Claim C9, counterexample to the claim as stated: pushing 8 frames into
the empty ring with no pops, the 8th push already fails (the ring keeps one
slot free, so only 7 pushes can succeed) — the claim's "pushes 1 through 8
all succeed" is false. -/
theorem c9_counterexample :
    (acquire_run (emptyRing Nat 0) ⟨0, 0⟩ [1, 2, 3, 4, 5, 6, 7, 8]).2.2 =
      [true, true, true, true, true, true, true, false] ∧
    (acquire_run (emptyRing Nat 0) ⟨0, 0⟩ [1, 2, 3, 4, 5, 6, 7, 8]).2.2 ≠
      [true, true, true, true, true, true, true, true] := by
  decide

/-- Claim C9 (amended): with the ring buffer of capacity 8, no pops, and 8
incoming frames, the acquisition loop pushes frames 1–7 successfully, the
8th attempt finds the ring full and drops the frame, and the dropped-frame
counter ends at exactly 1 (with all 8 frames counted in total). -/
theorem c9_drop_counter (α : Type) (d a1 a2 a3 a4 a5 a6 a7 a8 : α) :
    (acquire_run (emptyRing α d) ⟨0, 0⟩ [a1, a2, a3, a4, a5, a6, a7, a8]).2.2 =
      [true, true, true, true, true, true, true, false] ∧
    (acquire_run (emptyRing α d) ⟨0, 0⟩
      [a1, a2, a3, a4, a5, a6, a7, a8]).2.1.dropped_frames = 1 ∧
    (acquire_run (emptyRing α d) ⟨0, 0⟩
      [a1, a2, a3, a4, a5, a6, a7, a8]).2.1.total_frames = 8 := by
  refine ⟨?_, ?_, ?_⟩ <;>
    simp [acquire_run, acquire_step, ring_try_push, emptyRing, CIRC_SPACE,
      CIRC_CNT, FRAME_RING_SIZE, ringIdx]

/-- Helper: if the ACK busy-wait loop succeeds, the ACK flag was observed at
some step within its polling window. -/
theorem waitAckAux_exists (ack : Nat → Bool) :
    ∀ (fuel t : Nat), waitAckAux ack fuel t = true →
      ∃ u, t ≤ u ∧ u ≤ t + fuel ∧ ack u = true := by
  intro fuel
  induction fuel with
  | zero =>
    intro t h
    simp only [waitAckAux] at h
    exact ⟨t, Nat.le_refl t, by omega, h⟩
  | succ n ih =>
    intro t h
    simp only [waitAckAux] at h
    by_cases ha : ack t = true
    · exact ⟨t, Nat.le_refl t, by omega, ha⟩
    · rw [Bool.not_eq_true] at ha
      rw [ha] at h
      simp only [Bool.false_eq_true, if_false] at h
      obtain ⟨u, h1, h2, h3⟩ := ih (t + 1) h
      exact ⟨u, by omega, by omega, h3⟩

/-- Helper: if the ACK flag is never raised inside the polling window, the
busy-wait loop times out. -/
theorem waitAckAux_timeout (ack : Nat → Bool) :
    ∀ (fuel t : Nat), (∀ u, t ≤ u → u ≤ t + fuel → ack u = false) →
      waitAckAux ack fuel t = false := by
  intro fuel
  induction fuel with
  | zero =>
    intro t h
    simp only [waitAckAux]
    exact h t (Nat.le_refl t) (by omega)
  | succ n ih =>
    intro t h
    simp only [waitAckAux]
    rw [h t (Nat.le_refl t) (by omega)]
    simp only [Bool.false_eq_true, if_false]
    exact ih (t + 1) fun u h1 h2 => h u (by omega) (by omega)

/-- Claim C7 (confirmed): if no ACK from the capture core is observed within
the configured timeout after issuing a start command, `start_stop_capture`
returns -1 and the main loop leaves the run state `STOPPED`; and the run
state can only come out `STARTED` when the ACK was observed within the
timeout window. -/
theorem c7_start_ack_timeout :
    (∀ (ack : Nat → Bool) (tmout : Nat) (st : CapRunState),
      (∀ t, t ≤ tmout → ack t = false) →
      start_stop_capture ack tmout true st = (-1, st) ∧
      resume_capture ack tmout st = (-1, CapRunState.stopped)) ∧
    (∀ (ack : Nat → Bool) (tmout : Nat) (st : CapRunState),
      (resume_capture ack tmout st).2 = CapRunState.started →
      ∃ t, t ≤ tmout ∧ ack t = true) ∧
    (∀ (ack : Nat → Bool) (tmout : Nat) (st : CapRunState),
      st ≠ CapRunState.started →
      (start_stop_capture ack tmout true st).2 = CapRunState.started →
      ∃ t, t ≤ tmout ∧ ack t = true) := by
  refine ⟨?_, ?_, ?_⟩
  · intro ack tmout st hno
    have hw : waitAck ack tmout 0 = false := by
      simp only [waitAck, Nat.sub_zero]
      exact waitAckAux_timeout ack tmout 0 fun u h1 h2 => hno u (by omega)
    constructor
    · simp [start_stop_capture, hw]
    · simp [resume_capture, start_stop_capture, hw]
  · intro ack tmout st h
    cases hw : waitAck ack tmout 0 with
    | true =>
      obtain ⟨u, h1, h2, h3⟩ := waitAckAux_exists ack (tmout - 0) 0
        (by simpa [waitAck] using hw)
      exact ⟨u, by omega, h3⟩
    | false =>
      simp [resume_capture, start_stop_capture, hw] at h
  · intro ack tmout st hst h
    cases hw : waitAck ack tmout 0 with
    | true =>
      obtain ⟨u, h1, h2, h3⟩ := waitAckAux_exists ack (tmout - 0) 0
        (by simpa [waitAck] using hw)
      exact ⟨u, by omega, h3⟩
    | false =>
      rw [start_stop_capture, hw] at h
      simp at h
      exact absurd h hst

/-- Witness for `c7_start_ack_timeout`: with an ACK flag that never rises
and a 3-step timeout, the start returns -1 and the run state ends STOPPED. -/
theorem c7_witness :
    start_stop_capture (fun _ => false) 3 true CapRunState.paused =
      (-1, CapRunState.paused) ∧
    resume_capture (fun _ => false) 3 CapRunState.paused =
      (-1, CapRunState.stopped) :=
  c7_start_ack_timeout.1 (fun _ => false) 3 CapRunState.paused (fun t ht => rfl)
